import Mathlib

/-!
Verification of the advanced-alchemy repository/service layer against its
natural-language specification.  The Python sources under
`advanced_alchemy/filters.py`, `advanced_alchemy/service/_async.py`,
`advanced_alchemy/service/_sync.py` and
`advanced_alchemy/config/serialization.py` are shallowly embedded below:
pure attribute manipulation becomes functions on association lists, Python
exceptions become `Except`, and the external pieces (the repository backend
and the msgspec codec) are modelled from the specification where noted.
-/

namespace AdvancedAlchemy

/-- Attribute values stored on a mapped record.  `Val.none` is Python's
`None`; integers and strings cover the concrete values the claims exercise. -/
inductive Val where
  | none
  | int (n : Int)
  | str (s : String)
  deriving DecidableEq, Repr

/-- A mapped record ("Model"): an opaque bag of named attributes, embedded as
an association list from attribute names to values (first binding wins, as
attribute access resolves a single slot). -/
structure Model where
  fields : List (String × Val)
  deriving DecidableEq, Repr

/-- Python `getattr(model, name)` for mapped columns; missing attributes read
as `None` (mapped columns are always present, defaulting to NULL). -/
def getField (m : Model) (name : String) : Val :=
  match m.fields.find? (fun p => p.1 == name) with
  | some p => p.2
  | Option.none => Val.none

/-- Python `setattr(model, name, v)`: the attribute slot named `name` now
holds `v`; other slots are untouched. -/
def setField (m : Model) (name : String) (v : Val) : Model :=
  ⟨(name, v) :: m.fields.filter (fun p => p.1 != name)⟩

/-! ## Filter value types (embedded from `advanced_alchemy/filters.py`)

The dataclasses carry exactly the fields of the source; SQL/statement
machinery is replaced by direct application to a list of rows below. -/

/-- Data required to construct a WHERE ... IN (...) clause
(`filters.py` lines 77-86). -/
structure CollectionFilter where
  field_name : String
  values : Option (List Val)
  deriving DecidableEq, Repr

/-- Data required to construct a WHERE ... NOT IN (...) clause
(`filters.py` lines 89-98). -/
structure NotInCollectionFilter where
  field_name : String
  values : Option (List Val)
  deriving DecidableEq, Repr

/-- Data required to add limit/offset filtering to a query
(`filters.py` lines 101-108). -/
structure LimitOffset where
  limit : Nat
  offset : Nat
  deriving DecidableEq, Repr

/-- Sort direction for OrderBy. -/
inductive SortOrder where
  | asc
  | desc
  deriving DecidableEq, Repr

/-- Data required to construct an ORDER BY clause (`filters.py` lines 111-118). -/
structure OrderBy where
  field_name : String
  sort_order : SortOrder
  deriving DecidableEq, Repr

/-- Data required to construct a LIKE-substring clause
(`filters.py` lines 121-131). -/
structure SearchFilter where
  field_name : String
  value : String
  ignore_case : Bool
  deriving DecidableEq, Repr

/-- Data required to filter a query on a datetime column, strict bounds
(`filters.py` lines 53-62); datetimes are embedded as integers. -/
structure BeforeAfter where
  field_name : String
  before : Option Int
  after : Option Int
  deriving DecidableEq, Repr

/-! ## Filter application

The repository's filter-to-statement translation is not under src/ (only the
filter dataclasses and their docstrings are), so the application of each
filter to a row set is modelled from the spec, following the docstrings in
`filters.py` word for word. -/

/-- Modelled from the spec: the repository's translation of a
`CollectionFilter` into a row restriction (the repository package is not under
src/).  Per `filters.py`: "An empty list will return an empty result set,
however, if None, the filter is not applied to the query, and all rows are
returned." -/
def applyCollectionFilter (f : CollectionFilter) (rows : List Model) : List Model :=
  match f.values with
  | Option.none => rows
  | some vs => rows.filter (fun r => vs.contains (getField r f.field_name))

/-- Modelled from the spec: the repository's translation of a
`NotInCollectionFilter` into a row restriction (the repository package is not
under src/).  Per `filters.py`: "An empty list or None will return all
rows." -/
def applyNotInCollectionFilter (f : NotInCollectionFilter) (rows : List Model) : List Model :=
  match f.values with
  | Option.none => rows
  | some vs => rows.filter (fun r => !vs.contains (getField r f.field_name))

/-- Modelled from the spec: case-sensitive or case-insensitive substring
predicate of a `SearchFilter` (repository translation is not under src/). -/
def isSubstring (needle hay : List Char) : Bool :=
  (List.range (hay.length + 1)).any (fun i => needle.isPrefixOf (hay.drop i))

def likeMatch (needle : String) (hay : String) (ignore_case : Bool) : Bool :=
  if ignore_case then
    isSubstring needle.toLower.toList hay.toLower.toList
  else
    isSubstring needle.toList hay.toList

/-- Modelled from the spec: the repository's translation of a `SearchFilter`
into a substring restriction on string-valued fields. -/
def applySearchFilter (f : SearchFilter) (rows : List Model) : List Model :=
  rows.filter (fun r =>
    match getField r f.field_name with
    | Val.str s => likeMatch f.value s f.ignore_case
    | _ => false)

/-- Modelled from the spec: the repository's translation of a `BeforeAfter`
filter, restricting a datetime-valued field to be strictly earlier than
`before` and strictly later than `after`, each bound optional. -/
def applyBeforeAfter (f : BeforeAfter) (rows : List Model) : List Model :=
  rows.filter (fun r =>
    match getField r f.field_name with
    | Val.int t =>
        (match f.before with
         | some b => decide (t < b)
         | Option.none => true)
        && (match f.after with
            | some a => decide (a < t)
            | Option.none => true)
    | _ => false)

/-- Total comparison of attribute values used as a sort key: None sorts
first, then integers, then strings. -/
def valLe : Val → Val → Bool
  | Val.none, _ => true
  | Val.int _, Val.none => false
  | Val.int m, Val.int n => decide (m ≤ n)
  | Val.int _, Val.str _ => true
  | Val.str _, Val.none => false
  | Val.str _, Val.int _ => false
  | Val.str s, Val.str t => decide (s ≤ t)

/-- Modelled from the spec: the repository's translation of an `OrderBy`
filter: a stable sort on the named field, ascending or descending. -/
def applyOrderBy (f : OrderBy) (rows : List Model) : List Model :=
  match f.sort_order with
  | SortOrder.asc =>
      rows.mergeSort (fun a b => valLe (getField a f.field_name) (getField b f.field_name))
  | SortOrder.desc =>
      rows.mergeSort (fun a b => valLe (getField b f.field_name) (getField a f.field_name))

/-- Tagged union of the statement filters a repository read accepts
(the FilterTypes alias of `filters.py`). -/
inductive RepoFilter where
  | beforeAfter (f : BeforeAfter)
  | collection (f : CollectionFilter)
  | notInCollection (f : NotInCollectionFilter)
  | search (f : SearchFilter)
  | orderBy (f : OrderBy)
  | limitOffset (f : LimitOffset)
  deriving DecidableEq, Repr

/-- Modelled from the spec: the repository's shared dispatch rule folding one
filter into the query, variant by variant (spec section 4.1). -/
def applyStatementFilter (f : RepoFilter) (rows : List Model) : List Model :=
  match f with
  | RepoFilter.beforeAfter f => applyBeforeAfter f rows
  | RepoFilter.collection f => applyCollectionFilter f rows
  | RepoFilter.notInCollection f => applyNotInCollectionFilter f rows
  | RepoFilter.search f => applySearchFilter f rows
  | RepoFilter.orderBy f => applyOrderBy f rows
  | RepoFilter.limitOffset lo => (rows.drop lo.offset).take lo.limit

/-- Modelled from the spec: folding an ordered sequence of filters into the
query, preserving the order given. -/
def applyFilters (fs : List RepoFilter) (rows : List Model) : List Model :=
  fs.foldl (fun rows f => applyStatementFilter f rows) rows

/-- Recognizer for the pagination directive among the filters. -/
def isPaginationFilter : RepoFilter → Bool
  | RepoFilter.limitOffset _ => true
  | _ => false

/-- Filters with the pagination directives removed. -/
def stripPagination (fs : List RepoFilter) : List RepoFilter :=
  fs.filter (fun f => !isPaginationFilter f)

/-- Application of only the pagination directives of a filter sequence, in
order, to an arbitrary result list (used by the window-query mode where the
window count rides along with each row). -/
def applyPagination {α : Type} (fs : List RepoFilter) (l : List α) : List α :=
  fs.foldl (fun acc f =>
    match f with
    | RepoFilter.limitOffset lo => (acc.drop lo.offset).take lo.limit
    | _ => acc) l

/-- Modelled from the spec: the two-plain-queries mode of the repository's
`list_and_count` (`force_basic_query_mode = True`): one query for the rows
with every filter applied, one count query with the pagination directives
removed. -/
def list_and_count_basic (fs : List RepoFilter) (rows : List Model) : List Model × Nat :=
  (applyFilters fs rows, (applyFilters (stripPagination fs) rows).length)

/-- Modelled from the spec: the single window-function-query mode of the
repository's `list_and_count`: every filter except pagination is applied, the
total count rides along with each row as the window value, and pagination is
applied last to the combined result. -/
def list_and_count_window (fs : List RepoFilter) (rows : List Model) : List Model × Nat :=
  let base := applyFilters (stripPagination fs) rows
  let paired := base.map (fun r => (r, base.length))
  let page := applyPagination fs paired
  (page.map Prod.fst, base.length)

/-- Modelled from the spec: the repository's `list_and_count` dispatch on
`force_basic_query_mode`. -/
def repo_list_and_count (force_basic_query_mode : Bool) (fs : List RepoFilter)
    (rows : List Model) : List Model × Nat :=
  if force_basic_query_mode then list_and_count_basic fs rows
  else list_and_count_window fs rows

/-- Embedding of the service `list_and_count` (`service/_async.py` lines
427-466, `service/_sync.py` lines 185-213): the service forwards the filters
and the `force_basic_query_mode` flag (absent meaning the window mode is
allowed) to the repository and returns its pair. -/
def service_list_and_count (force_basic_query_mode : Option Bool)
    (fs : List RepoFilter) (rows : List Model) : List Model × Nat :=
  repo_list_and_count (force_basic_query_mode.getD false) fs rows

/-- Embedding of the service `list` (`service/_async.py` lines 524-560): the
service forwards the filters to the repository scalars operation. -/
def service_list (fs : List RepoFilter) (rows : List Model) : List Model :=
  applyFilters fs rows

/-! ## Chunked bulk deletion (claim C4) -/

/-- Modelled from the spec: splitting a batch into bounded-size sub-batches
("chunking", spec glossary); a chunk size of zero yields no batches. -/
def chunked {α : Type} (n : Nat) (l : List α) : List (List α) :=
  if _h : n = 0 then []
  else
    match l with
    | [] => []
    | x :: xs => ((x :: xs).take n) :: chunked n ((x :: xs).drop n)
termination_by l.length
decreasing_by
  simp [List.length_drop]
  omega

/-- Lookup of the record whose id attribute equals the given value. -/
def findById (db : List Model) (i : Val) : Option Model :=
  db.find? (fun m => getField m "id" == i)

/-- Modelled from the spec: one delete round-trip for a chunk of ids,
returning the deleted records in the chunk's order (absent ids delete
nothing). -/
def deleteBatch (chunk : List Val) (db : List Model) : List Model :=
  chunk.filterMap (fun i => findById db i)

/-- Modelled from the spec: the repository's `delete_many` (repository
package not under src/) - ids are split into chunks of the effective chunk
size (950 when unset, per the source docstring), one delete batch is issued
per chunk, and the deleted records are concatenated in input order.  The
second component counts the issued batches. -/
def repo_delete_many (item_ids : List Val) (db : List Model) (chunk_size : Option Nat) :
    List Model × Nat :=
  let size := chunk_size.getD 950
  let batches := chunked size item_ids
  (batches.foldl (fun acc chunk => acc ++ deleteBatch chunk db) [], batches.length)

/-- Embedding of the service `delete_many` (`service/_async.py` lines
1296-1338, `service/_sync.py` lines 657-688): forwards the ids and the
optional `chunk_size` to the repository unchanged. -/
def service_delete_many (item_ids : List Val) (db : List Model) (chunk_size : Option Nat) :
    List Model × Nat :=
  repo_delete_many item_ids db chunk_size

/-! ## Input coercion `to_model` (claims C5, C6) -/

/-- Marker for a structured-schema field: either carrying a value or the
unset sentinel (msgspec UNSET, pydantic field-not-set). -/
inductive StructVal where
  | unset
  | val (v : Val)
  deriving DecidableEq, Repr

/-- A msgspec Struct: named fields, each possibly the UNSET sentinel. -/
structure Struct where
  struct_fields : List (String × StructVal)
  deriving DecidableEq, Repr

/-- A pydantic BaseModel: named fields, the unset marker standing for fields
not explicitly provided. -/
structure BaseModel where
  model_fields : List (String × StructVal)
  deriving DecidableEq, Repr

/-- Pydantic model_dump with exclude_unset: only explicitly set fields
appear in the dump. -/
def model_dump_exclude_unset (b : BaseModel) : List (String × Val) :=
  b.model_fields.filterMap (fun p =>
    match p.2 with
    | StructVal.unset => Option.none
    | StructVal.val v => some (p.1, v))

/-- Dictionary comprehension of `to_model` on a msgspec Struct
(`service/_async.py` line 396): every struct field whose value is not the
UNSET sentinel, in declaration order. -/
def structSetFields (s : Struct) : List (String × Val) :=
  s.struct_fields.filterMap (fun p =>
    match p.2 with
    | StructVal.unset => Option.none
    | StructVal.val v => some (p.1, v))

/-- Modelled from the spec: `model_from_dict` (repository `_util`, not under
src/) builds the canonical record carrying the given field mapping. -/
def model_from_dict (d : List (String × Val)) : Model := ⟨d⟩

/-- Input shapes accepted by the async service `to_model`. -/
inductive InputData where
  | model (m : Model)
  | dict (d : List (String × Val))
  | pydantic (b : BaseModel)
  | struct (s : Struct)
  deriving DecidableEq, Repr

/-- Embedding of the async service `to_model` (`service/_async.py` lines
375-399): dict inputs go through `model_from_dict` with all their fields,
pydantic inputs are dumped excluding unset fields, msgspec Structs keep
exactly the fields not equal to the UNSET sentinel, and an already-typed
record passes through unchanged. -/
def to_model : InputData → Model
  | InputData.dict d => model_from_dict d
  | InputData.pydantic b => model_from_dict (model_dump_exclude_unset b)
  | InputData.struct s => model_from_dict (structSetFields s)
  | InputData.model m => m

/-- Value of the attribute slot named `f` on the record, if the slot exists. -/
def modelLookup (m : Model) (f : String) : Option Val :=
  (m.fields.find? (fun p => p.1 == f)).map Prod.snd

/-- Outcome of an input coercion: either a canonical record, or the input
passed through unconverted. -/
inductive CoerceResult where
  | model (m : Model)
  | passthrough (d : InputData)
  deriving DecidableEq, Repr

/-- The async `to_model` as a coercion outcome: every accepted shape becomes
a canonical record. -/
def async_to_model_result (d : InputData) : CoerceResult :=
  CoerceResult.model (to_model d)

/-- Embedding of the sync service `to_model` (`service/_sync.py` lines
172-183): only dict inputs are converted through `model_from_dict`; any
other input is returned unchanged, so structured schema inputs pass through
unconverted. -/
def sync_to_model_result : InputData → CoerceResult
  | InputData.dict d => CoerceResult.model (model_from_dict d)
  | InputData.model m => CoerceResult.model m
  | d => CoerceResult.passthrough d

/-- Names of the write operations offered by the async repository service
class (`service/_async.py`, class SQLAlchemyAsyncRepositoryService). -/
def asyncRepositoryServiceMethods : List String :=
  ["create", "create_many", "update", "update_many", "upsert", "upsert_many",
   "get_or_upsert", "get_and_update", "delete", "delete_many", "delete_where"]

/-- Names of the write operations offered by the sync repository service
class (`service/_sync.py`, class SQLAlchemySyncRepositoryService). -/
def syncRepositoryServiceMethods : List String :=
  ["create", "create_many", "update", "update_many", "upsert", "upsert_many",
   "get_or_upsert", "get_and_update", "delete", "delete_many"]

/-- Class names defined by the sync service module (`service/_sync.py`). -/
def syncModuleClasses : List String :=
  ["SQLAlchemySyncRepositoryReadService", "SQLAlchemySyncRepositoryService"]

/-- Names the service package imports from the sync module
(`service/__init__.py` lines 6-10). -/
def serviceInitSyncImports : List String :=
  ["SQLAlchemySyncQueryService", "SQLAlchemySyncRepositoryReadService",
   "SQLAlchemySyncRepositoryService"]

/-- A concrete msgspec Struct input: `name` set to a string, `id` unset. -/
def exampleStruct : Struct :=
  ⟨[("name", StructVal.val (Val.str "x")), ("id", StructVal.unset)]⟩

/-! ## Service update and upsert (claims C3, C10) -/

/-- The repository error kind raised by the service layer. -/
structure RepositoryError where
  msg : String
  deriving DecidableEq, Repr

/-- Modelled from the spec: the repository helper reading the id attribute
value from a record (the id attribute defaults to `id`). -/
def get_id_attribute_value (item : Model) (id_attribute : Option String) : Val :=
  getField item (id_attribute.getD "id")

/-- Modelled from the spec: the repository helper writing the id attribute
value onto a record (the id attribute defaults to `id`). -/
def set_id_attribute_value (item_id : Val) (item : Model) (id_attribute : Option String) : Model :=
  setField item (id_attribute.getD "id") item_id

/-- Missing-identifier error text of the service `update`. -/
def missingIdError : RepositoryError :=
  ⟨"Could not identify ID attribute value.  One of the following is required: item_id or data.id"⟩

/-- Embedding of the service `update` (`service/_async.py` lines 722-791,
`service/_sync.py` lines 374-431): coerce the input, raise the
missing-identifier error when neither the explicit `item_id` nor the coerced
record's id attribute yields an identity, otherwise write an explicit
`item_id` onto the record and delegate to the repository update.  The `ok`
payload is the record handed to the repository; `error` means the exception
was raised before any repository call. -/
def service_update (data : InputData) (item_id : Option Val) (id_attribute : Option String) :
    Except RepositoryError Model :=
  let d := to_model data
  if item_id = Option.none ∧ get_id_attribute_value d id_attribute = Val.none then
    Except.error missingIdError
  else
    Except.ok (match item_id with
      | some v => set_id_attribute_value v d id_attribute
      | Option.none => d)

/-- Embedding of the service `upsert` (`service/_async.py` lines 888-946,
`service/_sync.py` lines 454-500): coerce the input, resolve the identity
from the explicit `item_id` if given, else from the record's id attribute
(a None attribute resolves to no identity); write any resolved identity back
onto the record; always delegate to the repository upsert - the `ok` payload
is the record handed over, and no missing-identifier error exists on this
path. -/
def service_upsert (data : InputData) (item_id : Option Val) :
    Except RepositoryError Model :=
  let d := to_model data
  let resolved : Option Val :=
    match item_id with
    | some v => some v
    | Option.none =>
        match get_id_attribute_value d Option.none with
        | Val.none => Option.none
        | v => some v
  Except.ok (match resolved with
    | some v => set_id_attribute_value v d Option.none
    | Option.none => d)

/-! ## Scoped constructor (claim C9) -/

/-- Configuration error kind raised by the scoped constructors. -/
structure AdvancedAlchemyError where
  detail : String
  deriving DecidableEq, Repr

/-- Connection configuration: get_session yields this session. -/
structure SQLAlchemyAsyncConfig where
  provided_session : Nat
  deriving DecidableEq, Repr

/-- Session lifecycle events observable around the scoped constructor. -/
inductive SessionEvent where
  | acquire (s : Nat)
  | release (s : Nat)
  deriving DecidableEq, Repr

/-- Embedding of the scoped constructor `new` (`service/_async.py` lines
468-497 and 69-92): with neither session nor config, the configuration error
is raised before any instance exists; a supplied session is used directly
(no acquisition events); with only a config, a session is acquired for the
call block and released on every exit path (the async-with release semantics
of get_session are modelled from the spec).  The body is the caller's block
run on the session of the produced instance; the event list records
acquisition and release of config-provided sessions. -/
def service_new {A E : Type} (session : Option Nat) (config : Option SQLAlchemyAsyncConfig)
    (body : Nat → Except E A) :
    Except (AdvancedAlchemyError ⊕ E) A × List SessionEvent :=
  match session, config with
  | Option.none, Option.none =>
      (Except.error (Sum.inl ⟨"Please supply an optional configuration or session to use."⟩), [])
  | some s, _ => ((body s).mapError Sum.inr, [])
  | Option.none, some cfg =>
      let s := cfg.provided_session
      match body s with
      | Except.ok a => (Except.ok a, [SessionEvent.acquire s, SessionEvent.release s])
      | Except.error e => (Except.error (Sum.inr e), [SessionEvent.acquire s, SessionEvent.release s])

/-! ## Serialization codec (claim C7) -/

/-- Abstract tag naming one encoder entry of the type-encoder table. -/
inductive EncTag where
  | pyStr
  | isoformat
  | pyList
  | decimalIntOrFloat
  | patternStr
  | pyInt
  | pyFloat
  | pySet
  | pyFrozenset
  | pyBytes
  | custom (n : Nat)
  deriving DecidableEq, Repr

/-- Result of applying an encoder to a value: the value's abstract payload
tagged with the encoder that produced it. -/
inductive EncodedVal where
  | applied (e : EncTag) (payload : Nat)
  deriving DecidableEq, Repr

/-- A Python object as the serializer sees it: the type names of its class
MRO (always ending with object) and an abstract payload identity. -/
structure PyObj where
  mro : List String
  payload : Nat
  deriving DecidableEq, Repr

/-- Python exception kinds observable around the codec. -/
inductive PyError where
  | typeError (msg : String)
  | encodeError (msg : String)
  | decodeError (msg : String)
  deriving DecidableEq, Repr

/-- Message carried by a Python exception. -/
def pyErrorMsg : PyError → String
  | PyError.typeError m => m
  | PyError.encodeError m => m
  | PyError.decodeError m => m

/-- Association-list lookup standing for a Python dict lookup keyed by type. -/
def assocLookup (l : List (String × EncTag)) (t : String) : Option EncTag :=
  (l.find? (fun p => p.1 == t)).map Prod.snd

/-- Embedding of DEFAULT_TYPE_ENCODERS (`config/serialization.py` lines
37-62), keyed by type name, one entry per source entry. -/
def DEFAULT_TYPE_ENCODERS : List (String × EncTag) :=
  [("Path", EncTag.pyStr), ("PurePath", EncTag.pyStr),
   ("IPv4Address", EncTag.pyStr), ("IPv4Interface", EncTag.pyStr),
   ("IPv4Network", EncTag.pyStr), ("IPv6Address", EncTag.pyStr),
   ("IPv6Interface", EncTag.pyStr), ("IPv6Network", EncTag.pyStr),
   ("datetime", EncTag.isoformat), ("date", EncTag.isoformat),
   ("time", EncTag.isoformat), ("deque", EncTag.pyList),
   ("Decimal", EncTag.decimalIntOrFloat), ("Pattern", EncTag.patternStr),
   ("str", EncTag.pyStr), ("int", EncTag.pyInt), ("float", EncTag.pyFloat),
   ("set", EncTag.pySet), ("frozenset", EncTag.pyFrozenset),
   ("bytes", EncTag.pyBytes)]

/-- Lookup in the merged table default_serializer builds: caller-supplied
encoders override the defaults for the same type key. -/
def lookupEncoder (custom : List (String × EncTag)) (t : String) : Option EncTag :=
  match assocLookup custom t with
  | some e => some e
  | Option.none => assocLookup DEFAULT_TYPE_ENCODERS t

/-- MRO walk of default_serializer: the first base with an entry in the
merged table wins; when no base has one, a TypeError is raised. -/
def serializerWalk (value : PyObj) (custom : List (String × EncTag)) :
    List String → Except PyError EncodedVal
  | [] => Except.error (PyError.typeError "Unsupported type")
  | base :: rest =>
      match lookupEncoder custom base with
      | some e => Except.ok (EncodedVal.applied e value.payload)
      | Option.none => serializerWalk value custom rest

/-- Embedding of default_serializer (`config/serialization.py` lines 65-86):
merge the caller table over the defaults, then walk the class MRO excluding
its final entry (object), applying the first matching encoder; raise
TypeError when no class in the MRO has an encoder. -/
def default_serializer (value : PyObj) (type_encoders : Option (List (String × EncTag))) :
    Except PyError EncodedVal :=
  serializerWalk value (type_encoders.getD []) value.mro.dropLast

/-- Values handed to the JSON encoder: natively supported ones and foreign
objects needing the hook. -/
inductive JsonValue where
  | null
  | boolean (b : Bool)
  | number (n : Int)
  | string (s : String)
  | foreign (obj : PyObj)
  deriving DecidableEq, Repr

/-- Wire output of the encoder. -/
inductive EncodedJson where
  | native (v : JsonValue)
  | hooked (e : EncodedVal)
  deriving DecidableEq, Repr

/-- Modelled from the spec: the external msgspec JSON encoder - native
values are encoded directly, foreign values go through the enc_hook, whose
exception propagates out of the codec. -/
def msgspec_json_encode (enc_hook : PyObj → Except PyError EncodedVal) :
    JsonValue → Except PyError EncodedJson
  | JsonValue.foreign obj => (enc_hook obj).map EncodedJson.hooked
  | v => Except.ok (EncodedJson.native v)

/-- Serialization error surfaced to callers. -/
structure SerializationError where
  msg : String
  deriving DecidableEq, Repr

/-- Embedding of encode_json (`config/serialization.py` lines 124-140): use
the supplied serializer as hook if given, else the module encoder whose hook
is default_serializer with no caller table; any TypeError or codec
EncodeError is re-raised as a SerializationError carrying the original
message. -/
def encode_json (value : JsonValue)
    (serializer : Option (PyObj → Except PyError EncodedVal)) :
    Except SerializationError EncodedJson :=
  match (match serializer with
         | some s => msgspec_json_encode s value
         | Option.none =>
             msgspec_json_encode (fun v => default_serializer v Option.none) value) with
  | Except.ok b => Except.ok b
  | Except.error e => Except.error ⟨pyErrorMsg e⟩

/-- Raw decoder input: either well-formed JSON text denoting a value, or
malformed text. -/
inductive JsonText where
  | wellFormed (v : JsonValue)
  | malformed (msg : String)
  deriving DecidableEq, Repr

/-- Modelled from the spec: the external msgspec JSON decoder - malformed
input raises a DecodeError carrying the parser message. -/
def msgspec_json_decode : JsonText → Except PyError JsonValue
  | JsonText.wellFormed v => Except.ok v
  | JsonText.malformed m => Except.error (PyError.decodeError m)

/-- Embedding of decode_json (`config/serialization.py` lines 163-190): any
msgspec DecodeError is re-raised as a SerializationError carrying the
original message. -/
def decode_json (value : JsonText) : Except SerializationError JsonValue :=
  match msgspec_json_decode value with
  | Except.ok v => Except.ok v
  | Except.error e => Except.error ⟨pyErrorMsg e⟩

/-! ## Supporting lemmas about attribute access -/

theorem getField_setField_self (m : Model) (name : String) (v : Val) :
    getField (setField m name v) name = v := by
  simp [getField, setField, List.find?]

theorem find_filter_away (ps : List (String × Val)) (name other : String) (h : other ≠ name) :
    (ps.filter (fun p => p.1 != name)).find? (fun p => p.1 == other)
      = ps.find? (fun p => p.1 == other) := by
  induction ps with
  | nil => rfl
  | cons p ps ih =>
    by_cases hp : p.1 = name
    · have h1 : (p.1 != name) = false := by simp [hp]
      have h2 : (p.1 == other) = false := by
        rw [hp]; simp; exact fun heq => h heq.symm
      simp [List.filter_cons, h1, List.find?, h2, ih]
    · have h1 : (p.1 != name) = true := by simp [hp]
      by_cases hpo : p.1 = other
      · have h2 : (p.1 == other) = true := by simp [hpo]
        simp [List.filter_cons, h1, List.find?, h2]
      · have h2 : (p.1 == other) = false := by simp [hpo]
        simp [List.filter_cons, h1, List.find?, h2, ih]

theorem getField_setField_other (m : Model) (name other : String) (v : Val)
    (h : other ≠ name) : getField (setField m name v) other = getField m other := by
  have h2 : (name == other) = false := by
    simp; exact fun heq => h heq.symm
  simp only [getField, setField, List.find?, h2]
  rw [find_filter_away m.fields name other h]

/-! ## Claim C1: CollectionFilter semantics -/

/-- C1: for every CollectionFilter, an empty values collection yields zero
rows, an absent (None) values collection leaves every row in place, and on a
non-empty row set the two cases produce different results - the empty and
None cases have distinct semantics. -/
theorem claim_C1 (f : CollectionFilter) (rows : List Model) :
    (f.values = some [] → applyCollectionFilter f rows = [])
    ∧ (f.values = Option.none → applyCollectionFilter f rows = rows)
    ∧ (f.values = some [] → rows ≠ [] →
        applyCollectionFilter f rows
          ≠ applyCollectionFilter ⟨f.field_name, Option.none⟩ rows) := by
  refine ⟨?_, ?_, ?_⟩
  · intro h
    simp [applyCollectionFilter, h]
  · intro h
    simp [applyCollectionFilter, h]
  · intro h hrows
    simp [applyCollectionFilter, h]
    exact fun heq => hrows heq

/-- Witness for C1 at a concrete one-row store. -/
theorem claim_C1_witness :
    applyCollectionFilter ⟨"id", some []⟩ [⟨[("id", Val.int 1)]⟩] = []
    ∧ applyCollectionFilter ⟨"id", Option.none⟩ [⟨[("id", Val.int 1)]⟩]
        = [⟨[("id", Val.int 1)]⟩] :=
  ⟨(claim_C1 ⟨"id", some []⟩ [⟨[("id", Val.int 1)]⟩]).1 rfl,
   (claim_C1 ⟨"id", Option.none⟩ [⟨[("id", Val.int 1)]⟩]).2.1 rfl⟩

/-! ## Claim C8: NotInCollectionFilter semantics -/

/-- C8: for every NotInCollectionFilter, an absent (None) or empty values
collection imposes no restriction (all rows are returned); otherwise exactly
the rows whose field value lies in the collection are excluded. -/
theorem claim_C8 (f : NotInCollectionFilter) (rows : List Model) :
    (f.values = Option.none → applyNotInCollectionFilter f rows = rows)
    ∧ (f.values = some [] → applyNotInCollectionFilter f rows = rows)
    ∧ (∀ vs r, f.values = some vs →
        (r ∈ applyNotInCollectionFilter f rows
          ↔ r ∈ rows ∧ getField r f.field_name ∉ vs)) := by
  refine ⟨?_, ?_, ?_⟩
  · intro h
    simp [applyNotInCollectionFilter, h]
  · intro h
    simp [applyNotInCollectionFilter, h]
  · intro vs r h
    simp [applyNotInCollectionFilter, h, List.mem_filter]

/-- Witness for C8 at a concrete one-row store. -/
theorem claim_C8_witness :
    applyNotInCollectionFilter ⟨"id", Option.none⟩ [⟨[("id", Val.int 1)]⟩]
        = [⟨[("id", Val.int 1)]⟩]
    ∧ applyNotInCollectionFilter ⟨"id", some []⟩ [⟨[("id", Val.int 1)]⟩]
        = [⟨[("id", Val.int 1)]⟩]
    ∧ (⟨[("id", Val.int 1)]⟩ ∈ applyNotInCollectionFilter ⟨"id", some [Val.int 1]⟩
          [⟨[("id", Val.int 1)]⟩]
        ↔ (⟨[("id", Val.int 1)]⟩ : Model) ∈ [(⟨[("id", Val.int 1)]⟩ : Model)]
            ∧ getField ⟨[("id", Val.int 1)]⟩ "id" ∉ [Val.int 1]) :=
  ⟨(claim_C8 ⟨"id", Option.none⟩ [⟨[("id", Val.int 1)]⟩]).1 rfl,
   (claim_C8 ⟨"id", some []⟩ [⟨[("id", Val.int 1)]⟩]).2.1 rfl,
   (claim_C8 ⟨"id", some [Val.int 1]⟩ [⟨[("id", Val.int 1)]⟩]).2.2 [Val.int 1] _ rfl⟩

/-! ## Claim C2: list_and_count pagination and mode equivalence -/

theorem applyStatementFilter_length_le (f : RepoFilter) (rows : List Model) :
    (applyStatementFilter f rows).length ≤ rows.length := by
  cases f with
  | beforeAfter f => exact List.length_filter_le _ _
  | collection f =>
    cases hv : f.values with
    | none => simp [applyStatementFilter, applyCollectionFilter, hv]
    | some vs =>
      simp only [applyStatementFilter, applyCollectionFilter, hv]
      exact List.length_filter_le _ _
  | notInCollection f =>
    cases hv : f.values with
    | none => simp [applyStatementFilter, applyNotInCollectionFilter, hv]
    | some vs =>
      simp only [applyStatementFilter, applyNotInCollectionFilter, hv]
      exact List.length_filter_le _ _
  | search f => exact List.length_filter_le _ _
  | orderBy f =>
    cases ho : f.sort_order <;>
      simp [applyStatementFilter, applyOrderBy, ho, List.length_mergeSort]
  | limitOffset lo =>
    simp only [applyStatementFilter, List.length_take, List.length_drop]
    omega

theorem applyFilters_length_le (fs : List RepoFilter) (rows : List Model) :
    (applyFilters fs rows).length ≤ rows.length := by
  induction fs generalizing rows with
  | nil => exact le_refl _
  | cons f fs ih =>
    exact le_trans (ih (applyStatementFilter f rows)) (applyStatementFilter_length_le f rows)

theorem applyFilters_limit_le (lo : LimitOffset) :
    ∀ fs : List RepoFilter, RepoFilter.limitOffset lo ∈ fs →
      ∀ rows : List Model, (applyFilters fs rows).length ≤ lo.limit := by
  intro fs
  induction fs with
  | nil => intro h; cases h
  | cons f fs ih =>
    intro h rows
    rcases List.mem_cons.mp h with hf | hf
    · rw [← hf]
      refine le_trans
        (applyFilters_length_le fs (applyStatementFilter (RepoFilter.limitOffset lo) rows)) ?_
      simp only [applyStatementFilter, List.length_take]
      exact Nat.min_le_left _ _
    · show (applyFilters fs (applyStatementFilter f rows)).length ≤ lo.limit
      exact ih hf (applyStatementFilter f rows)

theorem applyPagination_length_le {α : Type} (fs : List RepoFilter) (l : List α) :
    (applyPagination fs l).length ≤ l.length := by
  induction fs generalizing l with
  | nil => exact le_refl _
  | cons f fs ih =>
    refine le_trans (ih _) ?_
    cases f <;> simp [List.length_take, List.length_drop]

theorem applyPagination_limit_le {α : Type} (lo : LimitOffset) :
    ∀ fs : List RepoFilter, RepoFilter.limitOffset lo ∈ fs →
      ∀ l : List α, (applyPagination fs l).length ≤ lo.limit := by
  intro fs
  induction fs with
  | nil => intro h; cases h
  | cons f fs ih =>
    intro h l
    rcases List.mem_cons.mp h with hf | hf
    · rw [← hf]
      refine le_trans (applyPagination_length_le fs ((l.drop lo.offset).take lo.limit)) ?_
      simp only [List.length_take]
      exact Nat.min_le_left _ _
    · show (applyPagination fs (match f with
          | RepoFilter.limitOffset lo => (l.drop lo.offset).take lo.limit
          | _ => l)).length ≤ lo.limit
      exact ih hf _

/-- C2: for every filter sequence, the total returned by the service
`list_and_count` is the same whichever query mode `force_basic_query_mode`
dispatches to, and equals the number of rows passing the non-pagination
filters (so it respects the other filters and ignores any LimitOffset); and
when a LimitOffset with limit L is among the filters, the returned item
sequence has length at most L in either mode. -/
theorem claim_C2 (fs : List RepoFilter) (rows : List Model) (mode1 mode2 : Option Bool) :
    (service_list_and_count mode1 fs rows).2 = (service_list_and_count mode2 fs rows).2
    ∧ (service_list_and_count mode1 fs rows).2
        = (applyFilters (stripPagination fs) rows).length
    ∧ (∀ lo : LimitOffset, RepoFilter.limitOffset lo ∈ fs →
        (service_list_and_count mode1 fs rows).1.length ≤ lo.limit) := by
  have htot : ∀ mode : Option Bool,
      (service_list_and_count mode fs rows).2
        = (applyFilters (stripPagination fs) rows).length := by
    intro mode
    cases hm : mode.getD false <;>
      simp [service_list_and_count, repo_list_and_count, hm,
        list_and_count_basic, list_and_count_window]
  refine ⟨(htot mode1).trans (htot mode2).symm, htot mode1, ?_⟩
  intro lo hlo
  cases hm : mode1.getD false with
  | true =>
    have hitems : (service_list_and_count mode1 fs rows).1 = applyFilters fs rows := by
      simp [service_list_and_count, repo_list_and_count, hm, list_and_count_basic]
    rw [hitems]
    exact applyFilters_limit_le lo fs hlo rows
  | false =>
    have hitems : (service_list_and_count mode1 fs rows).1
        = (applyPagination fs ((applyFilters (stripPagination fs) rows).map
            (fun r => (r, (applyFilters (stripPagination fs) rows).length)))).map
              Prod.fst := by
      simp [service_list_and_count, repo_list_and_count, hm, list_and_count_window]
    rw [hitems, List.length_map]
    exact applyPagination_limit_le lo fs hlo _

/-- Witness for C2 at a concrete store of two rows, a membership filter and
a LimitOffset of one, in both query modes. -/
theorem claim_C2_witness :
    (service_list_and_count (some true)
        [RepoFilter.collection ⟨"id", some [Val.int 1, Val.int 2]⟩,
         RepoFilter.limitOffset ⟨1, 0⟩]
        [⟨[("id", Val.int 1)]⟩, ⟨[("id", Val.int 2)]⟩]).2
      = (service_list_and_count (some false)
        [RepoFilter.collection ⟨"id", some [Val.int 1, Val.int 2]⟩,
         RepoFilter.limitOffset ⟨1, 0⟩]
        [⟨[("id", Val.int 1)]⟩, ⟨[("id", Val.int 2)]⟩]).2
    ∧ (service_list_and_count (some true)
        [RepoFilter.collection ⟨"id", some [Val.int 1, Val.int 2]⟩,
         RepoFilter.limitOffset ⟨1, 0⟩]
        [⟨[("id", Val.int 1)]⟩, ⟨[("id", Val.int 2)]⟩]).1.length ≤ 1 :=
  ⟨(claim_C2 [RepoFilter.collection ⟨"id", some [Val.int 1, Val.int 2]⟩,
      RepoFilter.limitOffset ⟨1, 0⟩]
      [⟨[("id", Val.int 1)]⟩, ⟨[("id", Val.int 2)]⟩] (some true) (some false)).1,
   (claim_C2 [RepoFilter.collection ⟨"id", some [Val.int 1, Val.int 2]⟩,
      RepoFilter.limitOffset ⟨1, 0⟩]
      [⟨[("id", Val.int 1)]⟩, ⟨[("id", Val.int 2)]⟩] (some true) (some false)).2.2
      ⟨1, 0⟩ (by decide)⟩

/-! ## Claim C4: chunked bulk deletion -/

theorem chunked_nil {α : Type} (n : Nat) : chunked (α := α) n [] = [] := by
  rw [chunked]
  split <;> rfl

theorem chunked_cons {α : Type} (n : Nat) (hn : n ≠ 0) (x : α) (xs : List α) :
    chunked n (x :: xs) = ((x :: xs).take n) :: chunked n ((x :: xs).drop n) := by
  conv_lhs => rw [chunked]
  simp [hn]

theorem div_count_step (m n : Nat) (hn : n ≠ 0) :
    (m + 1 - n + n - 1) / n + 1 = (m + 1 + n - 1) / n := by
  have hpos : 0 < n := Nat.pos_of_ne_zero hn
  have h2 : m + 1 + n - 1 = m + n := by omega
  rw [h2, Nat.add_div_right _ hpos]
  by_cases hcase : n ≤ m + 1
  · have h1 : m + 1 - n + n - 1 = m := by omega
    rw [h1]
  · have h1 : m + 1 - n + n - 1 = n - 1 := by omega
    rw [h1, Nat.div_eq_of_lt (by omega), Nat.div_eq_of_lt (by omega)]

theorem chunked_length {α : Type} (n : Nat) (hn : n ≠ 0) :
    ∀ l : List α, (chunked n l).length = (l.length + n - 1) / n := by
  refine chunked.induct n (fun l => (chunked n l).length = (l.length + n - 1) / n) ?_ ?_ ?_
  · intro x h
    exact absurd h hn
  · intro h
    simp only [chunked_nil, List.length_nil, Nat.zero_add]
    exact (Nat.div_eq_of_lt (by omega)).symm
  · intro h x xs ih
    rw [chunked_cons n hn]
    simp only [List.length_cons, ih, List.length_drop]
    exact div_count_step xs.length n hn

theorem chunked_flatten {α : Type} (n : Nat) (hn : n ≠ 0) :
    ∀ l : List α, (chunked n l).flatten = l := by
  refine chunked.induct n (fun l => (chunked n l).flatten = l) ?_ ?_ ?_
  · intro x h
    exact absurd h hn
  · intro h
    simp [chunked_nil]
  · intro h x xs ih
    rw [chunked_cons n hn]
    simp only [List.flatten_cons, ih]
    exact List.take_append_drop n (x :: xs)

theorem foldl_append_eq_flatten {α β : Type} (g : α → List β) :
    ∀ (bs : List α) (init : List β),
      bs.foldl (fun acc c => acc ++ g c) init = init ++ (bs.map g).flatten := by
  intro bs
  induction bs with
  | nil => intro init; simp
  | cons b bs ih =>
    intro init
    simp only [List.foldl_cons, List.map_cons, List.flatten_cons, ih, List.append_assoc]

/-- C4: the service `delete_many` with `chunk_size` unset uses the default
chunk size 950, issues one delete batch per chunk - so a number of batches
equal to the input length divided by 950 rounded up, in particular exactly 3
batches for 2000 ids - and returns exactly the deleted records concatenated
in input order. -/
theorem claim_C4 (item_ids : List Val) (db : List Model) :
    (service_delete_many item_ids db Option.none).1
        = item_ids.filterMap (fun i => findById db i)
    ∧ (service_delete_many item_ids db Option.none).2
        = (item_ids.length + 949) / 950
    ∧ (item_ids.length = 2000 → (service_delete_many item_ids db Option.none).2 = 3) := by
  have h950 : (950 : Nat) ≠ 0 := by decide
  have hlen : (service_delete_many item_ids db Option.none).2
      = (item_ids.length + 949) / 950 := by
    show (chunked 950 item_ids).length = _
    rw [chunked_length 950 h950]
    have e : item_ids.length + 950 - 1 = item_ids.length + 949 := by omega
    rw [e]
  have hfold : (service_delete_many item_ids db Option.none).1
      = ((chunked 950 item_ids).map (fun c => deleteBatch c db)).flatten := by
    show ((chunked 950 item_ids).foldl (fun acc chunk => acc ++ deleteBatch chunk db) []) = _
    rw [foldl_append_eq_flatten]
    simp
  refine ⟨?_, hlen, ?_⟩
  · rw [hfold]
    simp only [deleteBatch]
    rw [← List.filterMap_flatten, chunked_flatten 950 h950]
  · intro h2000
    rw [hlen, h2000]

/-- Witness for C4 at a concrete 2000-id input. -/
theorem claim_C4_witness :
    (service_delete_many (List.replicate 2000 (Val.int 0)) [] Option.none).2 = 3 :=
  (claim_C4 (List.replicate 2000 (Val.int 0)) []).2.2 (List.length_replicate 2000 (Val.int 0))

/-! ## Claim C5: to_model and the unset sentinel -/

theorem stripUnset_find_eq_none (fields : List (String × StructVal)) (f : String)
    (h : f ∉ fields.map Prod.fst) :
    ((fields.filterMap (fun p =>
        match p.2 with
        | StructVal.unset => Option.none
        | StructVal.val v => some (p.1, v))).find? (fun p => p.1 == f)) = Option.none := by
  induction fields with
  | nil => rfl
  | cons p ps ih =>
    have hkey : p.1 ≠ f := by
      intro he
      exact h (by simp [he])
    have hrest : f ∉ ps.map Prod.fst := fun hm => h (by simp [hm])
    cases hv : p.2 with
    | unset => simpa [List.filterMap_cons, hv] using ih hrest
    | val v =>
      have hb : (p.1 == f) = false := by simp [hkey]
      simp [List.filterMap_cons, hv, List.find?, hb, ih hrest]

theorem struct_lookup_unset (fields : List (String × StructVal)) (f : String)
    (hmem : (f, StructVal.unset) ∈ fields) (hnd : (fields.map Prod.fst).Nodup) :
    ((fields.filterMap (fun p =>
        match p.2 with
        | StructVal.unset => Option.none
        | StructVal.val v => some (p.1, v))).find? (fun p => p.1 == f)) = Option.none := by
  induction fields with
  | nil => cases hmem
  | cons p ps ih =>
    rcases List.mem_cons.mp hmem with hp | hp
    · have hv : p.2 = StructVal.unset := by rw [← hp]
      have hkey : p.1 = f := by rw [← hp]
      have hrest : f ∉ ps.map Prod.fst := by
        rw [← hkey]
        exact (List.nodup_cons.mp (by simpa using hnd)).1
      simp only [List.filterMap_cons, hv]
      exact stripUnset_find_eq_none ps f hrest
    · have hfkeys : f ∈ ps.map Prod.fst :=
        List.mem_map.mpr ⟨(f, StructVal.unset), hp, rfl⟩
      have hkey : p.1 ≠ f := by
        intro he
        exact (List.nodup_cons.mp (by simpa using hnd)).1 (he ▸ hfkeys)
      have hnd2 : (ps.map Prod.fst).Nodup := (List.nodup_cons.mp (by simpa using hnd)).2
      have hb : (p.1 == f) = false := by simp [hkey]
      cases hv : p.2 with
      | unset => simpa [List.filterMap_cons, hv] using ih hp hnd2
      | val v => simp [List.filterMap_cons, hv, List.find?, hb, ih hp hnd2]

theorem struct_lookup_val (fields : List (String × StructVal)) (f : String) (v : Val)
    (hmem : (f, StructVal.val v) ∈ fields) (hnd : (fields.map Prod.fst).Nodup) :
    ((fields.filterMap (fun p =>
        match p.2 with
        | StructVal.unset => Option.none
        | StructVal.val v => some (p.1, v))).find? (fun p => p.1 == f)) = some (f, v) := by
  induction fields with
  | nil => cases hmem
  | cons p ps ih =>
    rcases List.mem_cons.mp hmem with hp | hp
    · have hv : p.2 = StructVal.val v := by rw [← hp]
      have hkey : p.1 = f := by rw [← hp]
      simp [List.filterMap_cons, hv, List.find?, hkey]
    · have hfkeys : f ∈ ps.map Prod.fst :=
        List.mem_map.mpr ⟨(f, StructVal.val v), hp, rfl⟩
      have hkey : p.1 ≠ f := by
        intro he
        exact (List.nodup_cons.mp (by simpa using hnd)).1 (he ▸ hfkeys)
      have hnd2 : (ps.map Prod.fst).Nodup := (List.nodup_cons.mp (by simpa using hnd)).2
      have hb : (p.1 == f) = false := by simp [hkey]
      cases hv : p.2 with
      | unset => simpa [List.filterMap_cons, hv] using ih hp hnd2
      | val w => simp [List.filterMap_cons, hv, List.find?, hb, ih hp hnd2]

/-- C5: for structured schema inputs to `to_model`, fields carrying the
unset sentinel are excluded from the resulting record (no such attribute
slot exists), while a field explicitly set - even to None - is retained with
its value; plain mappings and already-typed records pass through with all
their fields. -/
theorem claim_C5 (s : Struct) (b : BaseModel) (d : List (String × Val)) (m : Model)
    (f : String) (v : Val) :
    ((f, StructVal.unset) ∈ s.struct_fields → (s.struct_fields.map Prod.fst).Nodup →
        modelLookup (to_model (InputData.struct s)) f = Option.none)
    ∧ ((f, StructVal.val v) ∈ s.struct_fields → (s.struct_fields.map Prod.fst).Nodup →
        modelLookup (to_model (InputData.struct s)) f = some v)
    ∧ ((f, StructVal.unset) ∈ b.model_fields → (b.model_fields.map Prod.fst).Nodup →
        modelLookup (to_model (InputData.pydantic b)) f = Option.none)
    ∧ ((f, StructVal.val v) ∈ b.model_fields → (b.model_fields.map Prod.fst).Nodup →
        modelLookup (to_model (InputData.pydantic b)) f = some v)
    ∧ to_model (InputData.dict d) = ⟨d⟩
    ∧ to_model (InputData.model m) = m := by
  refine ⟨?_, ?_, ?_, ?_, rfl, rfl⟩
  · intro hmem hnd
    simp only [to_model, model_from_dict, structSetFields, modelLookup]
    rw [struct_lookup_unset s.struct_fields f hmem hnd]
    rfl
  · intro hmem hnd
    simp only [to_model, model_from_dict, structSetFields, modelLookup]
    rw [struct_lookup_val s.struct_fields f v hmem hnd]
    rfl
  · intro hmem hnd
    simp only [to_model, model_from_dict, model_dump_exclude_unset, modelLookup]
    rw [struct_lookup_unset b.model_fields f hmem hnd]
    rfl
  · intro hmem hnd
    simp only [to_model, model_from_dict, model_dump_exclude_unset, modelLookup]
    rw [struct_lookup_val b.model_fields f v hmem hnd]
    rfl

/-- Witness for C5 at a concrete Struct with one unset field and one field
explicitly set to None. -/
theorem claim_C5_witness :
    modelLookup (to_model (InputData.struct
        ⟨[("a", StructVal.unset), ("b", StructVal.val Val.none)]⟩)) "a" = Option.none
    ∧ modelLookup (to_model (InputData.struct
        ⟨[("a", StructVal.unset), ("b", StructVal.val Val.none)]⟩)) "b" = some Val.none :=
  ⟨(claim_C5 ⟨[("a", StructVal.unset), ("b", StructVal.val Val.none)]⟩ ⟨[]⟩ [] ⟨[]⟩
      "a" Val.none).1 (by decide) (by decide),
   (claim_C5 ⟨[("a", StructVal.unset), ("b", StructVal.val Val.none)]⟩ ⟨[]⟩ [] ⟨[]⟩
      "b" Val.none).2.1 (by decide) (by decide)⟩

/-! ## Claim C3: update requires a resolvable identity -/

/-- C3: the service `update` fails with the missing-identifier repository
error - before any repository update call - exactly when the explicit
`item_id` is absent and the coerced data carries no id attribute value; with
an explicit `item_id` the update is delegated with that identity written
onto the data, and with an identity on the data alone the update is
delegated with the data unchanged. -/
theorem claim_C3 (data : InputData) (id_attribute : Option String) :
    (get_id_attribute_value (to_model data) id_attribute = Val.none →
        service_update data Option.none id_attribute = Except.error missingIdError)
    ∧ (∀ v : Val, service_update data (some v) id_attribute
        = Except.ok (set_id_attribute_value v (to_model data) id_attribute))
    ∧ (get_id_attribute_value (to_model data) id_attribute ≠ Val.none →
        service_update data Option.none id_attribute = Except.ok (to_model data)) := by
  refine ⟨?_, ?_, ?_⟩
  · intro h
    simp [service_update, h]
  · intro v
    simp [service_update]
  · intro h
    simp [service_update, h]

/-- Witness for C3 at concrete inputs: an empty mapping with no id fails,
and an explicit item_id is written onto the data before delegation. -/
theorem claim_C3_witness :
    service_update (InputData.dict []) Option.none Option.none
        = Except.error missingIdError
    ∧ service_update (InputData.dict []) (some (Val.int 7)) Option.none
        = Except.ok (set_id_attribute_value (Val.int 7)
            (to_model (InputData.dict [])) Option.none) :=
  ⟨(claim_C3 (InputData.dict []) Option.none).1 (by decide),
   (claim_C3 (InputData.dict []) Option.none).2.1 (Val.int 7)⟩

/-! ## Claim C10: upsert resolves an identity but never requires one -/

/-- C10: the service `upsert` resolves the target identity from the explicit
`item_id` if given, else from the id attribute of the coerced data, writes
any resolved identity back onto the data, and always delegates to the
repository - when neither source yields an identity it still delegates (the
insert path), never raising a missing-identifier error. -/
theorem claim_C10 (data : InputData) (item_id : Option Val) :
    (∃ m, service_upsert data item_id = Except.ok m)
    ∧ (∀ v, service_upsert data (some v)
        = Except.ok (set_id_attribute_value v (to_model data) Option.none))
    ∧ (∀ v, v ≠ Val.none → get_id_attribute_value (to_model data) Option.none = v →
        service_upsert data Option.none
          = Except.ok (set_id_attribute_value v (to_model data) Option.none))
    ∧ (get_id_attribute_value (to_model data) Option.none = Val.none →
        service_upsert data Option.none = Except.ok (to_model data)) := by
  refine ⟨⟨_, rfl⟩, fun v => rfl, ?_, ?_⟩
  · intro v hv hgid
    cases v with
    | none => exact absurd rfl hv
    | int n => simp [service_upsert, hgid]
    | str s => simp [service_upsert, hgid]
  · intro h
    simp [service_upsert, h]

/-- Witness for C10 at concrete inputs: no identity still delegates, and a
data-borne identity is written back. -/
theorem claim_C10_witness :
    service_upsert (InputData.dict []) Option.none
        = Except.ok (to_model (InputData.dict []))
    ∧ service_upsert (InputData.dict [("id", Val.int 3)]) Option.none
        = Except.ok (set_id_attribute_value (Val.int 3)
            (to_model (InputData.dict [("id", Val.int 3)])) Option.none) :=
  ⟨(claim_C10 (InputData.dict []) Option.none).2.2.2 (by decide),
   (claim_C10 (InputData.dict [("id", Val.int 3)]) Option.none).2.2.1 (Val.int 3)
      (by decide) (by decide)⟩

/-! ## Claim C6: sync/async divergence -/

/-- C6 fails on this code: the sync and async service variants diverge.  At
a concrete msgspec Struct input the async `to_model` coerces to a record
excluding the unset field while the sync `to_model` passes the Struct
through unconverted; the async write surface offers `delete_where` and the
sync class does not; and the service package imports a sync query-service
class that the sync module does not define. -/
theorem claim_C6 :
    async_to_model_result (InputData.struct exampleStruct)
        ≠ sync_to_model_result (InputData.struct exampleStruct)
    ∧ "delete_where" ∈ asyncRepositoryServiceMethods
    ∧ "delete_where" ∉ syncRepositoryServiceMethods
    ∧ "SQLAlchemySyncQueryService" ∈ serviceInitSyncImports
    ∧ "SQLAlchemySyncQueryService" ∉ syncModuleClasses := by
  refine ⟨by decide, by decide, by decide, by decide, by decide⟩

/-! ## Claim C9: scoped constructor -/

/-- C9: the scoped constructor `new` raises a configuration error - before
any service instance is produced and with no session events - when neither a
session nor a config is supplied; a supplied session is used directly for
the caller's block with no acquisition; with only a config, a session is
acquired for the block and released on every exit path (both when the block
returns and when it raises), and the block's outcome is surfaced. -/
theorem claim_C9 (A E : Type) (body : Nat → Except E A) (s : Nat)
    (config : Option SQLAlchemyAsyncConfig) (cfg : SQLAlchemyAsyncConfig) :
    (service_new (A := A) (E := E) Option.none Option.none body
        = (Except.error
            (Sum.inl ⟨"Please supply an optional configuration or session to use."⟩), []))
    ∧ (service_new (some s) config body = ((body s).mapError Sum.inr, []))
    ∧ ((service_new Option.none (some cfg) body).2
        = [SessionEvent.acquire cfg.provided_session,
           SessionEvent.release cfg.provided_session])
    ∧ ((service_new Option.none (some cfg) body).1
        = (body cfg.provided_session).mapError Sum.inr) := by
  refine ⟨rfl, ?_, ?_, ?_⟩
  · cases config <;> rfl
  · cases h : body cfg.provided_session <;> simp [service_new, h]
  · cases h : body cfg.provided_session <;> simp [service_new, h, Except.mapError]

/-! ## Claim C7: serializer MRO walk and codec error surfacing -/

theorem serializerWalk_append_of_unmatched (value : PyObj)
    (custom : List (String × EncTag)) (pre rest : List String)
    (hpre : ∀ x ∈ pre, lookupEncoder custom x = Option.none) :
    serializerWalk value custom (pre ++ rest) = serializerWalk value custom rest := by
  induction pre with
  | nil => rfl
  | cons x xs ih =>
    have hx := hpre x (List.mem_cons_self x xs)
    have hxs : ∀ y ∈ xs, lookupEncoder custom y = Option.none :=
      fun y hy => hpre y (List.mem_cons_of_mem x hy)
    simp [serializerWalk, hx, ih hxs]

theorem serializerWalk_all_unmatched (value : PyObj)
    (custom : List (String × EncTag)) (l : List String)
    (h : ∀ x ∈ l, lookupEncoder custom x = Option.none) :
    serializerWalk value custom l = Except.error (PyError.typeError "Unsupported type") := by
  have := serializerWalk_append_of_unmatched value custom l [] h
  simpa using this

/-- C7: default_serializer walks the class MRO excluding object and applies
the first encoder found in the merged table, caller-supplied entries
overriding defaults; when no class in the MRO has an encoder it raises the
unsupported-type error; encode_json surfaces that failure (and any codec
failure) as a SerializationError; and decode_json raises a
SerializationError carrying the decoder message on malformed input. -/
theorem claim_C7 (value : PyObj) (custom : List (String × EncTag)) :
    (∀ pre b rest, value.mro.dropLast = pre ++ b :: rest →
        (∀ x ∈ pre, lookupEncoder custom x = Option.none) →
        ∀ e, lookupEncoder custom b = some e →
        default_serializer value (some custom)
          = Except.ok (EncodedVal.applied e value.payload))
    ∧ ((∀ b ∈ value.mro.dropLast, lookupEncoder custom b = Option.none) →
        default_serializer value (some custom)
          = Except.error (PyError.typeError "Unsupported type"))
    ∧ (∀ b e, assocLookup custom b = some e → lookupEncoder custom b = some e)
    ∧ ((∀ b ∈ value.mro.dropLast, lookupEncoder [] b = Option.none) →
        encode_json (JsonValue.foreign value) Option.none
          = Except.error ⟨"Unsupported type"⟩)
    ∧ (∀ m, decode_json (JsonText.malformed m) = Except.error ⟨m⟩) := by
  refine ⟨?_, ?_, ?_, ?_, fun m => rfl⟩
  · intro pre b rest hsplit hpre e he
    show serializerWalk value custom value.mro.dropLast = _
    rw [hsplit, serializerWalk_append_of_unmatched value custom pre (b :: rest) hpre]
    simp [serializerWalk, he]
  · intro h
    exact serializerWalk_all_unmatched value custom value.mro.dropLast h
  · intro b e he
    simp [lookupEncoder, he]
  · intro h
    have hser : default_serializer value Option.none
        = Except.error (PyError.typeError "Unsupported type") :=
      serializerWalk_all_unmatched value [] value.mro.dropLast h
    simp [encode_json, msgspec_json_encode, hser, pyErrorMsg, Except.map]

/-- Witness for C7: a Path subclass is encoded through the caller-supplied
encoder for Path (overriding the default), and a malformed decode surfaces
the SerializationError. -/
theorem claim_C7_witness :
    default_serializer ⟨["MyPath", "Path", "object"], 7⟩ (some [("Path", EncTag.custom 1)])
        = Except.ok (EncodedVal.applied (EncTag.custom 1) 7)
    ∧ decode_json (JsonText.malformed "bad input") = Except.error ⟨"bad input"⟩ :=
  ⟨(claim_C7 ⟨["MyPath", "Path", "object"], 7⟩ [("Path", EncTag.custom 1)]).1
      ["MyPath"] "Path" [] (by decide) (by decide) (EncTag.custom 1) (by decide),
   (claim_C7 ⟨["MyPath", "Path", "object"], 7⟩ [("Path", EncTag.custom 1)]).2.2.2.2
      "bad input"⟩

end AdvancedAlchemy
